import Mathlib

/-!
Shallow embedding of `scripts/issue_worker.py`: the reference extractor
(`extract_image_urls`), extension inference (`infer_extension`), the
fetch/transform helpers (`download_image`, `run_main`) and the batch
orchestrator (`main`).  Pure text functions are translated directly;
effectful calls (file system, network, subprocess) are abstracted into an
environment `Env` of `Except`-valued oracles, so the orchestrator becomes a
pure function of the environment.  Character case handling models the ASCII
behaviour of Python's `re.IGNORECASE` / `str.lower` (non-ASCII case folding
is not modelled; none of the verified properties depends on it).
-/

set_option autoImplicit false

namespace IssueWorker

abbrev Chars := List Char

/-- Python's `\s` class, restricted to its ASCII members
(space, tab, newline, carriage return, vertical tab, form feed). -/
def pyIsSpace (c : Char) : Bool :=
  c = ' ' || c = '\t' || c = '\n' || c = '\r' || c = Char.ofNat 11 || c = Char.ofNat 12

/-- The single-quote character (written via its code point). -/
def squote : Char := Char.ofNat 39

/-- A quote accepted by the regex class `["\x27]`. -/
def isQuote (c : Char) : Bool := c = '"' || c = squote

/-- Matches `https?://` case-insensitively at the head of `l`, returning the
matched characters (in their original case) and the remainder.  The greedy
optional `s?` backtracks exactly as Python's engine does: if the character
after `http` is an `s` but is not followed by `://`, the empty alternative
for `s?` also fails, because that character cannot be `:`. -/
def matchScheme : Chars → Option (Chars × Chars)
  | c1 :: c2 :: c3 :: c4 :: rest =>
    if c1.toLower = 'h' ∧ c2.toLower = 't' ∧ c3.toLower = 't' ∧ c4.toLower = 'p' then
      match rest with
      | c5 :: rest2 =>
        if c5.toLower = 's' then
          match rest2 with
          | d1 :: d2 :: d3 :: rest3 =>
            if d1 = ':' ∧ d2 = '/' ∧ d3 = '/' then
              some ([c1, c2, c3, c4, c5, d1, d2, d3], rest3)
            else none
          | _ => none
        else
          -- `s?` matches empty, so `://` must start at c5
          match rest2 with
          | d2 :: d3 :: r =>
            if c5 = ':' ∧ d2 = '/' ∧ d3 = '/' then
              some ([c1, c2, c3, c4, c5, d2, d3], r)
            else none
          | _ => none
      | [] => none
    else none
  | _ => none

/-- One attempted match of `!\[[^\]]*]\((https?://[^)\s]+)\)` (IGNORECASE)
anchored at the head of the input; returns the captured group and the
remainder after the whole match.  The classes `[^\]]*` and `[^)\s]+` exclude
the character that must follow them, so the greedy matches are
deterministic: each consumes its maximal run. -/
def matchMarkdownAt : Chars → Option (Chars × Chars)
  | c0 :: c1 :: rest =>
    if c0 = '!' ∧ c1 = '[' then
      match rest.dropWhile (fun c => c ≠ ']') with
      | d0 :: d1 :: rest2 =>
        if d0 = ']' ∧ d1 = '(' then
          match matchScheme rest2 with
          | some (sch, rest3) =>
            let run := rest3.takeWhile (fun c => c ≠ ')' && !(pyIsSpace c))
            match rest3.dropWhile (fun c => c ≠ ')' && !(pyIsSpace c)) with
            | e0 :: rest5 =>
              if e0 = ')' ∧ !run.isEmpty then some (sch ++ run, rest5) else none
            | [] => none
          | none => none
        else none
      | _ => none
    else none
  | _ => none

/-- The tail `src=["\x27](https?://[^"\x27]+)["\x27]` of the HTML pattern
(IGNORECASE), anchored at the head of the input. -/
def matchSrcAt : Chars → Option (Chars × Chars)
  | s :: r :: c :: eq :: q :: rest =>
    if s.toLower = 's' ∧ r.toLower = 'r' ∧ c.toLower = 'c' ∧ eq = '=' ∧ isQuote q then
      match matchScheme rest with
      | some (sch, rest2) =>
        let run := rest2.takeWhile (fun ch => !(isQuote ch))
        match rest2.dropWhile (fun ch => !(isQuote ch)) with
        | q2 :: rest4 =>
          if isQuote q2 ∧ !run.isEmpty then some (sch ++ run, rest4) else none
        | [] => none
      | none => none
    else none
  | _ => none

/-- Greedy backtracking for `[^>]+`: try consuming `k, k-1, …, 1` characters
(the caller passes the maximal run length) and match the rest of the pattern
after each attempt, longest first — exactly Python's greedy `+`. -/
def tryBacktrack : Nat → Chars → Option (Chars × Chars)
  | 0, _ => none
  | k + 1, l =>
    match matchSrcAt (l.drop (k + 1)) with
    | some res => some res
    | none => tryBacktrack k l

/-- One attempted match of `<img[^>]+src=["\x27](https?://[^"\x27]+)["\x27]`
(IGNORECASE) anchored at the head of the input. -/
def matchHtmlAt (l : Chars) : Option (Chars × Chars) :=
  match l with
  | c1 :: c2 :: c3 :: c4 :: rest =>
    if c1 = '<' ∧ c2.toLower = 'i' ∧ c3.toLower = 'm' ∧ c4.toLower = 'g' then
      tryBacktrack (rest.takeWhile (fun c => c ≠ '>')).length rest
    else none
  | _ => none

/-- `re.findall` scan for the Markdown pattern: leftmost, non-overlapping
matches; on failure advance one character.  `fuel` bounds the recursion; the
callers pass the input length, which always suffices because every step
consumes at least one character. -/
def findallMD : Nat → Chars → List Chars
  | 0, _ => []
  | _ + 1, [] => []
  | fuel + 1, c :: cs =>
    match matchMarkdownAt (c :: cs) with
    | some (url, rest) => url :: findallMD fuel rest
    | none => findallMD fuel cs

/-- `re.findall` scan for the HTML pattern. -/
def findallHTML : Nat → Chars → List Chars
  | 0, _ => []
  | _ + 1, [] => []
  | fuel + 1, c :: cs =>
    match matchHtmlAt (c :: cs) with
    | some (url, rest) => url :: findallHTML fuel rest
    | none => findallHTML fuel cs

/-- `re.findall(r"!\[[^\]]*]\((https?://[^)\s]+)\)", issue_body, re.IGNORECASE)`. -/
def markdown_urls (issue_body : String) : List String :=
  (findallMD issue_body.data.length issue_body.data).map fun l => String.mk l

/-- `re.findall(r"<img[^>]+src=[quotes](https?://[^quotes]+)[quotes]", issue_body, re.IGNORECASE)`. -/
def html_urls (issue_body : String) : List String :=
  (findallHTML issue_body.data.length issue_body.data).map fun l => String.mk l

/-- The dedup loop of `extract_image_urls`: walk the concatenated match
list, keeping each URL the first time it is seen (`seen` plays the role of
the Python set). -/
def dedupFirst (seen : List String) : List String → List String
  | [] => []
  | u :: rest =>
    if u ∈ seen then dedupFirst seen rest
    else u :: dedupFirst (u :: seen) rest

/-- `extract_image_urls(issue_body)`. -/
def extract_image_urls (issue_body : String) : List String :=
  dedupFirst [] (markdown_urls issue_body ++ html_urls issue_body)

/-! ### `urlparse(url).path` and `Path(path).suffix` -/

/-- Characters allowed in a URL scheme (`scheme_chars` of `urllib.parse`). -/
def isSchemeChar (c : Char) : Bool :=
  c.isAlpha || c.isDigit || c = '+' || c = '-' || c = '.'

/-- The schemes for which `urlparse` splits `;params` off the last path
segment (`uses_params` of `urllib.parse`). -/
def uses_params : List String :=
  ["", "ftp", "hdl", "prospero", "http", "imap", "https", "shttp", "rtsp",
   "rtspu", "sip", "sips", "mms", "sftp", "tel"]

/-- `urllib.parse._splitparams`, keeping only the path part: cut at the
first `;` that occurs at or after the last `/` (or anywhere, if the path
has no `/`). -/
def splitparams (path : Chars) : Chars :=
  if path.contains '/' then
    let p := path.length - 1 - ((path.reverse.findIdx? (fun c => c = '/')).getD 0)
    match (path.drop p).findIdx? (fun c => c = ';') with
    | some k => path.take (p + k)
    | none => path
  else
    match path.findIdx? (fun c => c = ';') with
    | some k => path.take k
    | none => path

/-- `urlparse(url).path`: left-strip C0-control/space characters, remove the
unsafe bytes tab/CR/LF, strip a valid `scheme:` head, strip a `//netloc`,
cut query and fragment, and split `;params` off the last segment when the
scheme uses them. -/
def urlparse_path (url : String) : String :=
  let l0 := (url.data.dropWhile fun c => c.toNat ≤ 32).filter
    fun c => !(c = '\t' || c = '\r' || c = '\n')
  let pre := l0.takeWhile fun c => c ≠ ':'
  let headAlpha : Bool := match pre with | c :: _ => c.isAlpha | [] => false
  let hasScheme : Bool := pre.length < l0.length && headAlpha && pre.all isSchemeChar
  let scheme : String := if hasScheme then String.mk (pre.map Char.toLower) else ""
  let l1 := if hasScheme then l0.drop (pre.length + 1) else l0
  let l2 :=
    match l1 with
    | '/' :: '/' :: rest => rest.dropWhile fun c => c ≠ '/' && c ≠ '?' && c ≠ '#'
    | _ => l1
  let path := (l2.takeWhile fun c => c ≠ '#').takeWhile fun c => c ≠ '?'
  if scheme ∈ uses_params ∧ path.contains ';' then String.mk (splitparams path)
  else String.mk path

/-- Split a character list at every occurrence of `sep` (as Python's
`str.split` with a one-character separator does). -/
def splitOnChar (sep : Char) : Chars → List Chars
  | [] => [[]]
  | c :: cs =>
    if c = sep then [] :: splitOnChar sep cs
    else
      match splitOnChar sep cs with
      | [] => [[c]]
      | h :: t => (c :: h) :: t

/-- `PurePosixPath(p).name`: the last path component, after dropping empty
components and `.` components. -/
def path_name (p : String) : Chars :=
  (((splitOnChar '/' p.data).filter fun comp =>
      !comp.isEmpty && !(comp == ['.'])).getLast?).getD []

/-- `PurePosixPath(p).suffix`: `name[i:]` for `i = name.rfind(".")` when
`0 < i < len(name) - 1`, else the empty string. -/
def path_suffix (p : String) : String :=
  let name := path_name p
  match name.reverse.findIdx? (fun c => c = '.') with
  | none => ""
  | some j =>
    let i := name.length - 1 - j
    if 0 < i ∧ i < name.length - 1 then String.mk (name.drop i) else ""

/-- `str.lower` (ASCII). -/
def py_lower (s : String) : String := String.mk (s.data.map Char.toLower)

/-- `str.strip()` restricted to ASCII whitespace. -/
def py_strip (s : String) : String :=
  String.mk (((s.data.dropWhile pyIsSpace).reverse.dropWhile pyIsSpace).reverse)

/-- `IMAGE_EXTS` (the module-level constant). -/
def IMAGE_EXTS : List String := [".png", ".jpg", ".jpeg", ".webp", ".bmp"]

/-- `infer_extension(url, content_type)`.  `guess_extension` abstracts
`mimetypes.guess_extension` (a table lookup external to the program);
`content_type = none` models the Python argument `None`, and the inner
`if ct = ""` / `if g = ""` tests model Python string truthiness. -/
def infer_extension (guess_extension : String → Option String)
    (url : String) (content_type : Option String) : String :=
  let suffix := py_lower (path_suffix (urlparse_path url))
  if suffix ∈ IMAGE_EXTS then suffix
  else
    match content_type with
    | none => ".png"
    | some ct =>
      if ct = "" then ".png"
      else
        match guess_extension (py_strip (String.mk (ct.data.takeWhile fun c => c ≠ ';'))) with
        | none => ".png"
        | some g =>
          if g ≠ "" ∧ py_lower g ∈ IMAGE_EXTS then py_lower g else ".png"

/-! ### The effectful part: fetch, transform, orchestrator

Every interaction with the outside world is a field of `Env`.  A field
returning `Except String _` models a Python call that either returns or
raises; the `String` of the `error` case is `str(exc)`, the exception's
message. -/

/-- The result of `subprocess.run(..., capture_output=True, text=True)`. -/
structure SubprocResult where
  returncode : Int
  stdout : String
  stderr : String
deriving DecidableEq

/-- The outside world as seen by `issue_worker.py`. -/
structure Env where
  /-- `Path(p).read_text(encoding="utf-8")`. -/
  readFile : String → Except String String
  /-- `Path(p).mkdir(parents=True, exist_ok=True)`. -/
  mkdir : String → Except String Unit
  /-- `mimetypes.guess_extension`. -/
  guess_extension : String → Option String
  /-- `urlopen(Request(url, ...), timeout=60)` followed by `response.read()`:
  either the bytes of the body or a raised transport/HTTP error. -/
  urlopen : String → Except String (List Nat)
  /-- `save_path.write_bytes(data)`. -/
  write_bytes : String → List Nat → Except String Unit
  /-- `subprocess.run([sys.executable, "main.py", input, output], ...)`,
  keyed by the two path arguments. -/
  subprocess_run : String → String → Except String SubprocResult
  /-- `output_path.exists()`, queried after the subprocess returns. -/
  path_exists : String → Bool
  /-- `(output_root / "manifest.json").write_text(...)`. -/
  write_manifest : String → Except String Unit

/-- `download_image(url, save_path)`. -/
def download_image (env : Env) (url : String) (save_path : String) : Except String Unit :=
  match env.urlopen url with
  | .error e => .error e
  | .ok data =>
    if data.isEmpty then .error ("Empty response: " ++ url)
    else env.write_bytes save_path data

/-- `run_main(input_path, output_path)`: `ok` holds iff the exit status is
zero and the output path exists afterwards; the log is stdout ++ stderr,
stripped. -/
def run_main (env : Env) (input_path output_path : String) :
    Except String (Bool × String) :=
  match env.subprocess_run input_path output_path with
  | .error e => .error e
  | .ok result =>
    let ok := result.returncode == 0 && env.path_exists output_path
    .ok (ok, py_strip (result.stdout ++ result.stderr))

/-- One entry of the manifest's `items` list.  `none` for `input`, `output`,
`log` models the key being absent from the Python dict. -/
structure ManifestItem where
  index : Nat
  url : String
  status : String
  input : Option String
  output : Option String
  log : Option String
deriving DecidableEq, Inhabited

/-- The manifest document. -/
structure Manifest where
  issue_number : String
  total_images : Nat
  processed_images : Nat
  items : List ManifestItem
deriving DecidableEq

/-- One iteration of the `for index, url in enumerate(urls, start=1)` loop:
the produced ManifestItem together with the increment (0 or 1) that the
iteration adds to `processed_images`.  The item starts as `skipped`; the
`try` body either completes (status `ok`/`failed` with paths and log set)
or raises, in which case the `except` arm sets status `failed` and the
message as log, leaving `input`/`output` absent. -/
def processItem (env : Env) (inputs_dir results_dir : String) (index : Nat)
    (url : String) : ManifestItem × Nat :=
  let ext := infer_extension env.guess_extension url none
  let input_path := inputs_dir ++ "/input_" ++ toString index ++ ext
  match download_image env url input_path with
  | .error e =>
    ({ index := index, url := url, status := "failed",
       input := none, output := none, log := some e }, 0)
  | .ok _ =>
    let output_path := results_dir ++ "/output_" ++ toString index ++ ".png"
    match run_main env input_path output_path with
    | .error e =>
      ({ index := index, url := url, status := "failed",
         input := none, output := none, log := some e }, 0)
    | .ok (ok, message) =>
      ({ index := index, url := url,
         status := if ok then "ok" else "failed",
         input := some input_path, output := some output_path,
         log := some message },
       if ok then 1 else 0)

/-- The whole loop, threading the 1-based index; returns the `items` list
and the final `processed_images` count. -/
def processItems (env : Env) (inputs_dir results_dir : String) :
    Nat → List String → List ManifestItem × Nat
  | _, [] => ([], 0)
  | index, url :: rest =>
    ((processItem env inputs_dir results_dir index url).1 ::
       (processItems env inputs_dir results_dir (index + 1) rest).1,
     (processItem env inputs_dir results_dir index url).2 +
       (processItems env inputs_dir results_dir (index + 1) rest).2)

/-- The manifest built by `main` for a resolved URL list (`total_images` is
set to `len(urls)` before the loop; `processed_images` accumulates over it). -/
def runBatch (env : Env) (issue_number output_dir : String)
    (urls : List String) : Manifest :=
  let (items, count) := processItems env (output_dir ++ "/inputs") (output_dir ++ "/results") 1 urls
  { issue_number := issue_number, total_images := urls.length,
    processed_images := count, items := items }

/-- `json.loads(args.urls_json) if args.urls_json else extract_image_urls(issue_body)`:
`some us` models a non-empty `--urls-json` argument whose JSON parse
yielded the list `us`; `none` models the empty default. -/
def resolve_urls (urls_json : Option (List String)) (issue_body : String) : List String :=
  match urls_json with
  | some us => us
  | none => extract_image_urls issue_body

/-- The parsed command line. -/
structure Args where
  issue_body_file : String
  issue_number : String
  output_dir : String
  urls_json : Option (List String)

/-- Observable side effects of a run, in program order. -/
inductive Event where
  | readIssueBody : String → Event
  | mkdir : String → Event
  | writeManifest : String → Event
deriving DecidableEq

/-- The body of `main()` after argument parsing: the trace of side effects
attempted (in order) and either the written manifest or the message of the
uncaught exception that aborted the run. -/
def main_run (env : Env) (args : Args) : List Event × Except String Manifest :=
  match env.readFile args.issue_body_file with
  | .error e => ([.readIssueBody args.issue_body_file], .error e)
  | .ok issue_body =>
    let urls := resolve_urls args.urls_json issue_body
    let inputs_dir := args.output_dir ++ "/inputs"
    let results_dir := args.output_dir ++ "/results"
    match env.mkdir inputs_dir with
    | .error e => ([.readIssueBody args.issue_body_file, .mkdir inputs_dir], .error e)
    | .ok _ =>
      match env.mkdir results_dir with
      | .error e =>
        ([.readIssueBody args.issue_body_file, .mkdir inputs_dir, .mkdir results_dir], .error e)
      | .ok _ =>
        let m := runBatch env args.issue_number args.output_dir urls
        let trace := [Event.readIssueBody args.issue_body_file, .mkdir inputs_dir,
          .mkdir results_dir, .writeManifest (args.output_dir ++ "/manifest.json")]
        match env.write_manifest (args.output_dir ++ "/manifest.json") with
        | .error e => (trace, .error e)
        | .ok _ => (trace, .ok m)

/-! ### Helper lemmas about the per-item loop -/

theorem processItem_shape (env : Env) (a b : String) (i : Nat) (u : String) :
    ∃ (st : String) (inp outp lg : Option String),
      processItem env a b i u =
        ({ index := i, url := u, status := st, input := inp, output := outp, log := lg },
         if st = "ok" then 1 else 0) ∧
      (st = "ok" ∨ st = "failed") := by
  simp only [processItem]
  cases hd : download_image env u
      (a ++ "/input_" ++ toString i ++ infer_extension env.guess_extension u none) with
  | error e => exact ⟨"failed", none, none, some e, rfl, Or.inr rfl⟩
  | ok v =>
    cases hr : run_main env
        (a ++ "/input_" ++ toString i ++ infer_extension env.guess_extension u none)
        (b ++ "/output_" ++ toString i ++ ".png") with
    | error e => exact ⟨"failed", none, none, some e, rfl, Or.inr rfl⟩
    | ok p =>
      obtain ⟨ok, message⟩ := p
      cases ok
      · exact ⟨"failed", some _, some _, some message, rfl, Or.inr rfl⟩
      · exact ⟨"ok", some _, some _, some message, rfl, Or.inl rfl⟩

theorem processItem_fst_index (env : Env) (a b : String) (i : Nat) (u : String) :
    (processItem env a b i u).1.index = i := by
  obtain ⟨st, inp, outp, lg, he, _⟩ := processItem_shape env a b i u
  rw [he]

theorem processItem_fst_url (env : Env) (a b : String) (i : Nat) (u : String) :
    (processItem env a b i u).1.url = u := by
  obtain ⟨st, inp, outp, lg, he, _⟩ := processItem_shape env a b i u
  rw [he]

theorem processItem_status (env : Env) (a b : String) (i : Nat) (u : String) :
    (processItem env a b i u).1.status = "ok" ∨
      (processItem env a b i u).1.status = "failed" := by
  obtain ⟨st, inp, outp, lg, he, hs⟩ := processItem_shape env a b i u
  rw [he]
  exact hs

theorem processItem_snd_count (env : Env) (a b : String) (i : Nat) (u : String) :
    (processItem env a b i u).2 =
      if (processItem env a b i u).1.status = "ok" then 1 else 0 := by
  obtain ⟨st, inp, outp, lg, he, _⟩ := processItem_shape env a b i u
  rw [he]

theorem processItem_urlopen_error (env : Env) (a b : String) (i : Nat) (u e : String)
    (h : env.urlopen u = .error e) :
    (processItem env a b i u).1 =
      { index := i, url := u, status := "failed",
        input := none, output := none, log := some e } := by
  simp only [processItem, download_image, h]

theorem processItems_fst_length (env : Env) (a b : String) :
    ∀ (urls : List String) (i : Nat),
      (processItems env a b i urls).1.length = urls.length
  | [], _ => rfl
  | _ :: rest, i => by
    simp [processItems, processItems_fst_length env a b rest (i + 1)]

theorem processItems_fst_get (env : Env) (a b : String) :
    ∀ (urls : List String) (i k : Nat),
      (processItems env a b i urls).1[k]? =
        (urls[k]?).map fun u => (processItem env a b (i + k) u).1
  | [], _, _ => by simp [processItems]
  | u :: rest, i, 0 => by simp [processItems]
  | u :: rest, i, k + 1 => by
    have ih := processItems_fst_get env a b rest (i + 1) k
    simp only [processItems, List.getElem?_cons_succ, ih]
    have : i + 1 + k = i + (k + 1) := by omega
    rw [this]

theorem processItems_snd_count (env : Env) (a b : String) :
    ∀ (urls : List String) (i : Nat),
      (processItems env a b i urls).2 =
        ((processItems env a b i urls).1.filter fun it => it.status == "ok").length
  | [], _ => rfl
  | u :: rest, i => by
    have ih := processItems_snd_count env a b rest (i + 1)
    simp only [processItems, List.filter_cons]
    rw [processItem_snd_count]
    by_cases h : (processItem env a b i u).1.status = "ok" <;>
      simp [h, ih, Nat.add_comm]

theorem processItems_mem_status (env : Env) (a b : String) :
    ∀ (urls : List String) (i : Nat) (it : ManifestItem),
      it ∈ (processItems env a b i urls).1 →
      it.status = "ok" ∨ it.status = "failed"
  | [], _, _, h => by simp [processItems] at h
  | u :: rest, i, it, h => by
    rcases List.mem_cons.mp h with h1 | h2
    · rw [h1]; exact processItem_status env a b i u
    · exact processItems_mem_status env a b rest (i + 1) it h2

/-! ### Concrete environments used to witness the theorems below -/

/-- A nonsense nonempty byte string standing for a fetched image body. -/
def bytesOk : List Nat := [137, 80, 78, 71]

/-- An environment where everything succeeds. -/
def envHappy : Env where
  readFile := fun _ => .ok "![img](http://e.com/a.png)"
  mkdir := fun _ => .ok ()
  guess_extension := fun _ => none
  urlopen := fun _ => .ok bytesOk
  write_bytes := fun _ _ => .ok ()
  subprocess_run := fun _ _ => .ok { returncode := 0, stdout := "done", stderr := "" }
  path_exists := fun _ => true
  write_manifest := fun _ => .ok ()

/-- Like `envHappy`, but fetching the first URL raises a network timeout. -/
def envTimeout : Env :=
  { envHappy with
    urlopen := fun u =>
      if u = "http://e.com/a.png" then .error "The read operation timed out"
      else .ok bytesOk }

/-- Like `envHappy`, but the transform exits 0 without creating its output. -/
def envNoOutput : Env := { envHappy with path_exists := fun _ => false }

/-- Like `envHappy`, but the issue-body file cannot be read. -/
def envNoFile : Env :=
  { envHappy with readFile := fun _ => .error "No such file or directory" }

/-! ### Claim theorems (orchestrator) -/

/-- C1: the written manifest's `items` has exactly one entry per
discovered/supplied reference, in discovery order, with 1-based indices
assigned by enumeration order, and `len(items) = total_images = number of
references`, for every environment (hence regardless of which items fail). -/
theorem runBatch_manifest_items_complete (env : Env) (n d : String)
    (urls : List String) :
    (runBatch env n d urls).items.length = urls.length ∧
    (runBatch env n d urls).total_images = urls.length ∧
    (∀ k : Nat, ((runBatch env n d urls).items[k]?).map ManifestItem.index =
      (urls[k]?).map fun _ => k + 1) ∧
    (∀ k : Nat, ((runBatch env n d urls).items[k]?).map ManifestItem.url = urls[k]?) := by
  refine ⟨by simp [runBatch, processItems_fst_length], rfl, ?_, ?_⟩
  · intro k
    simp only [runBatch, processItems_fst_get]
    cases urls[k]? with
    | none => rfl
    | some u => simp [processItem_fst_index, Nat.add_comm]
  · intro k
    simp only [runBatch, processItems_fst_get]
    cases urls[k]? with
    | none => rfl
    | some u => simp [processItem_fst_url]

/-- C3: `processed_images` equals the count of items whose status is `"ok"`,
and never exceeds `total_images`. -/
theorem runBatch_processed_images_count (env : Env) (n d : String)
    (urls : List String) :
    (runBatch env n d urls).processed_images =
      ((runBatch env n d urls).items.filter fun it => it.status == "ok").length ∧
    (runBatch env n d urls).processed_images ≤ (runBatch env n d urls).total_images := by
  constructor
  · simp [runBatch, processItems_snd_count]
  · calc (runBatch env n d urls).processed_images
        = ((runBatch env n d urls).items.filter fun it => it.status == "ok").length := by
          simp [runBatch, processItems_snd_count]
      _ ≤ (runBatch env n d urls).items.length := List.length_filter_le _ _
      _ = urls.length := by simp [runBatch, processItems_fst_length]
      _ = (runBatch env n d urls).total_images := rfl

/-- C9 (implicit): every item of a written manifest has status `"ok"` or
`"failed"`; the initial `"skipped"` status never survives to the manifest. -/
theorem runBatch_no_skipped_status (env : Env) (n d : String)
    (urls : List String) (it : ManifestItem)
    (hmem : it ∈ (runBatch env n d urls).items) :
    (it.status = "ok" ∨ it.status = "failed") ∧ it.status ≠ "skipped" := by
  have h := processItems_mem_status env (d ++ "/inputs") (d ++ "/results") urls 1 it hmem
  refine ⟨h, ?_⟩
  rcases h with h | h <;> rw [h] <;> decide

theorem runBatch_no_skipped_status_witness :
    ((runBatch envHappy "7" "out" ["http://e.com/a.png"]).items.head!.status = "ok" ∨
      (runBatch envHappy "7" "out" ["http://e.com/a.png"]).items.head!.status = "failed") ∧
    (runBatch envHappy "7" "out" ["http://e.com/a.png"]).items.head!.status ≠ "skipped" :=
  runBatch_no_skipped_status envHappy "7" "out" ["http://e.com/a.png"]
    (runBatch envHappy "7" "out" ["http://e.com/a.png"]).items.head!
    (List.head!_mem_self (by
      intro hnil
      have hlen := processItems_fst_length envHappy ("out" ++ "/inputs")
        ("out" ++ "/results") ["http://e.com/a.png"] 1
      rw [show (processItems envHappy ("out" ++ "/inputs") ("out" ++ "/results") 1
        ["http://e.com/a.png"]).1 = (runBatch envHappy "7" "out"
        ["http://e.com/a.png"]).items from rfl, hnil] at hlen
      simp at hlen))

/-- C2: an exception raised while processing one item (here: the fetch of
its URL raising, e.g. a network timeout with a non-empty message) is caught
at the item boundary: that item gets status `"failed"` with the exception
message as `log`, the manifest still has one entry per reference, and every
other item is exactly what processing it alone would produce (so the failure
does not affect them).  The last conjunct shows the same catch for an
exception raised by the transform invocation instead of the fetch. -/
theorem runBatch_item_failure_isolated (env : Env) (n d : String)
    (urls : List String) (j : Nat) (u e : String)
    (hu : urls[j]? = some u) (he : env.urlopen u = .error e) :
    (((runBatch env n d urls).items[j]?).map ManifestItem.status = some "failed") ∧
    (((runBatch env n d urls).items[j]?).map ManifestItem.log = some (some e)) ∧
    (runBatch env n d urls).items.length = urls.length ∧
    (∀ k : Nat, (runBatch env n d urls).items[k]? =
      (urls[k]?).map fun u2 =>
        (processItem env (d ++ "/inputs") (d ++ "/results") (k + 1) u2).1) ∧
    (∀ (a b : String) (i2 : Nat) (u2 e2 : String),
      download_image env u2
          (a ++ "/input_" ++ toString i2 ++ infer_extension env.guess_extension u2 none) =
        .ok () →
      run_main env
          (a ++ "/input_" ++ toString i2 ++ infer_extension env.guess_extension u2 none)
          (b ++ "/output_" ++ toString i2 ++ ".png") = .error e2 →
      (processItem env a b i2 u2).1.status = "failed" ∧
      (processItem env a b i2 u2).1.log = some e2) := by
  have hget : ∀ k : Nat, (runBatch env n d urls).items[k]? =
      (urls[k]?).map fun u2 =>
        (processItem env (d ++ "/inputs") (d ++ "/results") (k + 1) u2).1 := by
    intro k
    simp only [runBatch, processItems_fst_get, Nat.add_comm 1 k]
  have hj := hget j
  rw [hu] at hj
  have hfail := processItem_urlopen_error env (d ++ "/inputs") (d ++ "/results") (j + 1) u e he
  refine ⟨?_, ?_, by simp [runBatch, processItems_fst_length], hget, ?_⟩
  · simp [hj, hfail]
  · simp [hj, hfail]
  · intro a b i2 u2 e2 hdl hrm
    constructor <;> simp only [processItem, hdl, hrm]

theorem runBatch_item_failure_isolated_witness :
    (((runBatch envTimeout "7" "out"
        ["http://e.com/a.png", "http://e.com/b.png"]).items[0]?).map
          ManifestItem.status = some "failed") ∧
    (((runBatch envTimeout "7" "out"
        ["http://e.com/a.png", "http://e.com/b.png"]).items[0]?).map
          ManifestItem.log = some (some "The read operation timed out")) ∧
    (runBatch envTimeout "7" "out"
        ["http://e.com/a.png", "http://e.com/b.png"]).items.length = 2 ∧
    (((runBatch envTimeout "7" "out"
        ["http://e.com/a.png", "http://e.com/b.png"]).items[1]?).map
          ManifestItem.status = some "ok") := by
  have h := runBatch_item_failure_isolated envTimeout "7" "out"
    ["http://e.com/a.png", "http://e.com/b.png"] 0 "http://e.com/a.png"
    "The read operation timed out" (by decide) (by rfl)
  exact ⟨h.1, h.2.1, h.2.2.1, by rw [h.2.2.2.1 1]; decide⟩

/-- C4: `run_main` reports success iff the subprocess exit status is zero
AND the declared output path exists afterwards; consequently a zero exit
status with a missing output file makes the item `"failed"`. -/
theorem run_main_success_requires_output (env : Env) :
    (∀ (input output : String) (r : SubprocResult),
      env.subprocess_run input output = .ok r →
      run_main env input output =
        .ok (r.returncode == 0 && env.path_exists output,
             py_strip (r.stdout ++ r.stderr)) ∧
      ((r.returncode == 0 && env.path_exists output) = true ↔
        (r.returncode = 0 ∧ env.path_exists output = true))) ∧
    (∀ (a b : String) (i : Nat) (u : String) (r : SubprocResult),
      env.subprocess_run
          (a ++ "/input_" ++ toString i ++ infer_extension env.guess_extension u none)
          (b ++ "/output_" ++ toString i ++ ".png") = .ok r →
      download_image env u
          (a ++ "/input_" ++ toString i ++ infer_extension env.guess_extension u none) =
        .ok () →
      r.returncode = 0 →
      env.path_exists (b ++ "/output_" ++ toString i ++ ".png") = false →
      (processItem env a b i u).1.status = "failed") := by
  constructor
  · intro input output r hr
    refine ⟨by simp [run_main, hr], ?_⟩
    simp [Bool.and_eq_true, beq_iff_eq]
  · intro a b i u r hr hd hret hex
    have hrm : run_main env
        (a ++ "/input_" ++ toString i ++ infer_extension env.guess_extension u none)
        (b ++ "/output_" ++ toString i ++ ".png") =
        .ok (false, py_strip (r.stdout ++ r.stderr)) := by
      simp [run_main, hr, hret, hex]
    simp only [processItem, hd, hrm]
    rfl

theorem run_main_success_requires_output_witness :
    (processItem envNoOutput "in" "res" 1 "http://e.com/a.png").1.status = "failed" :=
  (run_main_success_requires_output envNoOutput).2 "in" "res" 1 "http://e.com/a.png"
    { returncode := 0, stdout := "done", stderr := "" }
    (by rfl) (by rfl) rfl rfl

/-- C7: a supplied URL list is used verbatim (its own order and duplicates),
independently of the issue body, and the Extractor runs only when no list is
supplied. -/
theorem resolve_urls_supplied_list_verbatim (us : List String) (body : String) :
    resolve_urls (some us) body = us ∧
    (∀ body2 : String, resolve_urls (some us) body = resolve_urls (some us) body2) ∧
    resolve_urls none body = extract_image_urls body :=
  ⟨rfl, fun _ => rfl, rfl⟩

/-- C10 (implicit): the issue-body file is read unconditionally, as the very
first side effect of every run; if reading it fails, the run aborts with
that error before any directory creation or manifest write — also when a
URL list was supplied. -/
theorem main_run_reads_issue_body_first (env : Env) (args : Args) :
    (main_run env args).1.head? = some (Event.readIssueBody args.issue_body_file) ∧
    (∀ e : String, env.readFile args.issue_body_file = .error e →
      main_run env args = ([Event.readIssueBody args.issue_body_file], .error e)) := by
  constructor
  · simp only [main_run]
    cases hr : env.readFile args.issue_body_file with
    | error e => rfl
    | ok body =>
      cases env.mkdir (args.output_dir ++ "/inputs") with
      | error e => rfl
      | ok _ =>
        cases env.mkdir (args.output_dir ++ "/results") with
        | error e => rfl
        | ok _ =>
          cases env.write_manifest (args.output_dir ++ "/manifest.json") with
          | error e => rfl
          | ok _ => rfl
  · intro e he
    simp [main_run, he]

theorem main_run_reads_issue_body_first_witness :
    main_run envNoFile
      { issue_body_file := "body.txt", issue_number := "7", output_dir := "out",
        urls_json := some ["http://e.com/a.png"] } =
      ([Event.readIssueBody "body.txt"], .error "No such file or directory") :=
  (main_run_reads_issue_body_first envNoFile
    { issue_body_file := "body.txt", issue_number := "7", output_dir := "out",
      urls_json := some ["http://e.com/a.png"] }).2
    "No such file or directory" rfl


/-- C6: extension inference is deterministic and ordered: (a) a recognized
(case-insensitive) suffix of the URL path wins; (b) otherwise a supplied
content-type whose guessed extension lowers to a recognized one is used;
(c) otherwise the result is `".png"` (shown for the content-type-absent,
content-type-empty, guess-failed and guess-unrecognized cases). -/
theorem infer_extension_inference_order (guess : String → Option String)
    (url : String) (ct : Option String) :
    (py_lower (path_suffix (urlparse_path url)) ∈ IMAGE_EXTS →
      infer_extension guess url ct = py_lower (path_suffix (urlparse_path url))) ∧
    (py_lower (path_suffix (urlparse_path url)) ∉ IMAGE_EXTS →
      ∀ s g : String, ct = some s → s ≠ "" →
        guess (py_strip (String.mk (s.data.takeWhile fun c => c ≠ ';'))) = some g →
        g ≠ "" → py_lower g ∈ IMAGE_EXTS →
        infer_extension guess url ct = py_lower g) ∧
    (py_lower (path_suffix (urlparse_path url)) ∉ IMAGE_EXTS →
      (ct = none → infer_extension guess url ct = ".png") ∧
      (ct = some "" → infer_extension guess url ct = ".png") ∧
      (∀ s : String, ct = some s →
        guess (py_strip (String.mk (s.data.takeWhile fun c => c ≠ ';'))) = none →
        infer_extension guess url ct = ".png") ∧
      (∀ s g : String, ct = some s →
        guess (py_strip (String.mk (s.data.takeWhile fun c => c ≠ ';'))) = some g →
        py_lower g ∉ IMAGE_EXTS →
        infer_extension guess url ct = ".png")) := by
  refine ⟨fun hin => by simp [infer_extension, hin], ?_, ?_⟩
  · intro hout s g hct hs hg hgne hglow
    subst hct
    simp only [ne_eq, decide_not] at hg
    simp [infer_extension, hout, hs, hg, hgne, hglow]
  · intro hout
    refine ⟨fun hct => by subst hct; simp [infer_extension, hout], ?_, ?_, ?_⟩
    · intro hct
      subst hct
      simp [infer_extension, hout]
    · intro s hct hg
      subst hct
      simp only [ne_eq, decide_not] at hg
      by_cases hs : s = ""
      · simp [infer_extension, hout, hs]
      · simp [infer_extension, hout, hs, hg]
    · intro s g hct hg hglow
      subst hct
      simp only [ne_eq, decide_not] at hg
      by_cases hs : s = ""
      · simp [infer_extension, hout, hs]
      · simp [infer_extension, hout, hs, hg, hglow]

/-- A fragment of the `mimetypes.guess_extension` table, used as a witness
environment for the inference-order theorem. -/
def guessTable : String → Option String := fun s =>
  if s = "image/jpeg" then some ".jpg"
  else if s = "image/png" then some ".png"
  else none

theorem infer_extension_inference_order_witness :
    infer_extension guessTable "http://e.com/photo" (some "image/jpeg; charset=x") = ".jpg" ∧
    infer_extension guessTable "http://e.com/a.JPG" (some "image/png") = ".jpg" ∧
    infer_extension guessTable "http://e.com/photo" none = ".png" := by
  refine ⟨?_, ?_, ?_⟩
  · exact (infer_extension_inference_order guessTable "http://e.com/photo"
      (some "image/jpeg; charset=x")).2.1 (by decide) "image/jpeg; charset=x" ".jpg"
      rfl (by decide) (by rfl) (by decide) (by decide)
  · exact (infer_extension_inference_order guessTable "http://e.com/a.JPG"
      (some "image/png")).1 (by decide)
  · exact ((infer_extension_inference_order guessTable "http://e.com/photo"
      none).2.2 (by decide)).1 rfl


/-! ### The Extractor: dedup characterization (C5) -/

/-- Specification-side description of the Extractor's dedup step: keep each
URL's first occurrence and drop every later duplicate, preserving order. -/
def specFirstSeen : List String → List String
  | [] => []
  | u :: rest => u :: specFirstSeen (rest.filter fun v => v ≠ u)
termination_by l => l.length
decreasing_by
  simp only [List.length_cons]
  exact Nat.lt_succ_of_le (List.length_filter_le _ _)

theorem dedupFirst_mem (v : String) :
    ∀ (l seen : List String), v ∈ dedupFirst seen l → v ∈ l ∧ v ∉ seen
  | [], seen, h => by simp [dedupFirst] at h
  | u :: rest, seen, h => by
    by_cases hu : u ∈ seen
    · rw [dedupFirst, if_pos hu] at h
      have ih := dedupFirst_mem v rest seen h
      exact ⟨List.mem_cons_of_mem _ ih.1, ih.2⟩
    · rw [dedupFirst, if_neg hu] at h
      rcases List.mem_cons.mp h with h1 | h2
      · subst h1
        exact ⟨List.mem_cons_self _ _, hu⟩
      · have ih := dedupFirst_mem v rest (u :: seen) h2
        exact ⟨List.mem_cons_of_mem _ ih.1,
          fun hv => ih.2 (List.mem_cons_of_mem _ hv)⟩

theorem dedupFirst_nodup : ∀ (l seen : List String), (dedupFirst seen l).Nodup
  | [], _ => List.nodup_nil
  | u :: rest, seen => by
    by_cases hu : u ∈ seen
    · rw [dedupFirst, if_pos hu]
      exact dedupFirst_nodup rest seen
    · rw [dedupFirst, if_neg hu]
      refine List.nodup_cons.mpr ⟨?_, dedupFirst_nodup rest (u :: seen)⟩
      intro hmem
      exact (dedupFirst_mem u rest (u :: seen) hmem).2 (List.mem_cons_self _ _)

theorem dedupFirst_eq_specFirstSeen :
    ∀ (l seen : List String),
      dedupFirst seen l = specFirstSeen (l.filter fun u => decide (u ∉ seen))
  | [], seen => by simp [dedupFirst, specFirstSeen]
  | u :: rest, seen => by
    by_cases hu : u ∈ seen
    · rw [dedupFirst, if_pos hu, dedupFirst_eq_specFirstSeen rest seen]
      simp [List.filter_cons, hu]
    · rw [dedupFirst, if_neg hu, dedupFirst_eq_specFirstSeen rest (u :: seen)]
      have hcons : (u :: rest).filter (fun v => decide (v ∉ seen)) =
          u :: rest.filter fun v => decide (v ∉ seen) := by
        simp [List.filter_cons, hu]
      rw [hcons, specFirstSeen]
      congr 1
      rw [List.filter_filter]
      refine congrArg specFirstSeen (List.filter_congr ?_)
      intro v _
      by_cases h1 : v = u <;> by_cases h2 : v ∈ seen <;> simp [h1, h2, hu]

/-- The claim's example text,
`![img](https://example.com/a.jpg) <img src='https://example.com/a.jpg'>`
(the single quotes spliced in via `squote`). -/
def exampleBoth : String :=
  "![img](https://example.com/a.jpg) <img src=" ++ String.singleton squote ++
    "https://example.com/a.jpg" ++ String.singleton squote ++ ">"

/-- C5: the Extractor's output is exactly the first-occurrence dedup of the
Markdown matches followed by the HTML matches — hence duplicate-free, order
preserving, with a URL present in both forms appearing once at its Markdown
position; on the claim's example it returns the single URL once. -/
theorem extract_image_urls_dedup_first_seen (body : String) :
    extract_image_urls body =
      specFirstSeen (markdown_urls body ++ html_urls body) ∧
    (extract_image_urls body).Nodup ∧
    extract_image_urls exampleBoth = ["https://example.com/a.jpg"] := by
  refine ⟨?_, dedupFirst_nodup _ _, by decide⟩
  rw [extract_image_urls, dedupFirst_eq_specFirstSeen]
  congr 1
  simp


/-! ### The Extractor: only http/https URLs are captured (C8) -/

/-- `http://` as lowered characters. -/
def httpLowerChars : Chars := ['h', 't', 't', 'p', ':', '/', '/']

/-- `https://` as lowered characters. -/
def httpsLowerChars : Chars := ['h', 't', 't', 'p', 's', ':', '/', '/']

theorem toLower_colon : Char.toLower ':' = ':' := by decide

theorem toLower_slash : Char.toLower '/' = '/' := by decide

theorem matchScheme_capture (l sch rest : Chars)
    (h : matchScheme l = some (sch, rest)) :
    sch.map Char.toLower = httpLowerChars ∨ sch.map Char.toLower = httpsLowerChars := by
  rcases l with _ | ⟨c1, _ | ⟨c2, _ | ⟨c3, _ | ⟨c4, r⟩⟩⟩⟩ <;>
    simp only [matchScheme] at h
  repeat' split at h
  all_goals first
    | exact Option.noConfusion h
    | (injection h with h1
       injection h1 with h2 h3
       subst h2
       subst h3
       simp_all [httpLowerChars, httpsLowerChars, toLower_colon, toLower_slash])

theorem matchMarkdownAt_capture (l cap rest : Chars)
    (h : matchMarkdownAt l = some (cap, rest)) :
    ∃ t, cap.map Char.toLower = httpLowerChars ++ t ∨
         cap.map Char.toLower = httpsLowerChars ++ t := by
  rcases l with _ | ⟨c0, tl⟩
  · exact absurd h (by simp [matchMarkdownAt])
  rcases tl with _ | ⟨c1, r⟩
  · exact absurd h (by simp [matchMarkdownAt])
  simp only [matchMarkdownAt] at h
  split at h
  case isFalse => exact absurd h (by simp)
  case isTrue =>
    split at h
    case h_2 => exact absurd h (by simp)
    case h_1 d0 d1 rest2 heqd =>
      split at h
      case isFalse => exact absurd h (by simp)
      case isTrue =>
        split at h
        case h_2 => exact absurd h (by simp)
        case h_1 sch rest3 heqs =>
          split at h
          case h_2 => exact absurd h (by simp)
          case h_1 e0 rest5 heqe =>
            split at h
            case isFalse => exact absurd h (by simp)
            case isTrue =>
              have hcap : sch ++ rest3.takeWhile (fun c => c ≠ ')' && !(pyIsSpace c)) = cap :=
                congrArg Prod.fst (Option.some.inj h)
              rcases matchScheme_capture rest2 sch rest3 heqs with hs | hs
              · exact ⟨(rest3.takeWhile (fun c => c ≠ ')' && !(pyIsSpace c))).map Char.toLower,
                  Or.inl (by rw [← hcap, List.map_append, hs])⟩
              · exact ⟨(rest3.takeWhile (fun c => c ≠ ')' && !(pyIsSpace c))).map Char.toLower,
                  Or.inr (by rw [← hcap, List.map_append, hs])⟩

theorem matchSrcAt_capture (l cap rest : Chars)
    (h : matchSrcAt l = some (cap, rest)) :
    ∃ t, cap.map Char.toLower = httpLowerChars ++ t ∨
         cap.map Char.toLower = httpsLowerChars ++ t := by
  rcases l with _ | ⟨s, tl1⟩
  · exact absurd h (by simp [matchSrcAt])
  rcases tl1 with _ | ⟨r, tl2⟩
  · exact absurd h (by simp [matchSrcAt])
  rcases tl2 with _ | ⟨c, tl3⟩
  · exact absurd h (by simp [matchSrcAt])
  rcases tl3 with _ | ⟨eq, tl4⟩
  · exact absurd h (by simp [matchSrcAt])
  rcases tl4 with _ | ⟨q, rest0⟩
  · exact absurd h (by simp [matchSrcAt])
  simp only [matchSrcAt] at h
  split at h
  case isFalse => exact absurd h (by simp)
  case isTrue =>
    split at h
    case h_2 => exact absurd h (by simp)
    case h_1 sch rest2 heqs =>
      split at h
      case h_2 => exact absurd h (by simp)
      case h_1 q2 rest4 heqq =>
        split at h
        case isFalse => exact absurd h (by simp)
        case isTrue =>
          have hcap : sch ++ rest2.takeWhile (fun ch => !(isQuote ch)) = cap :=
            congrArg Prod.fst (Option.some.inj h)
          rcases matchScheme_capture rest0 sch rest2 heqs with hs | hs
          · exact ⟨(rest2.takeWhile (fun ch => !(isQuote ch))).map Char.toLower,
              Or.inl (by rw [← hcap, List.map_append, hs])⟩
          · exact ⟨(rest2.takeWhile (fun ch => !(isQuote ch))).map Char.toLower,
              Or.inr (by rw [← hcap, List.map_append, hs])⟩

theorem tryBacktrack_capture :
    ∀ (k : Nat) (l cap rest : Chars), tryBacktrack k l = some (cap, rest) →
      ∃ t, cap.map Char.toLower = httpLowerChars ++ t ∨
           cap.map Char.toLower = httpsLowerChars ++ t
  | 0, l, cap, rest, h => by simp [tryBacktrack] at h
  | k + 1, l, cap, rest, h => by
    simp only [tryBacktrack] at h
    split at h
    case h_1 res heq =>
      rw [h] at heq
      exact matchSrcAt_capture _ cap rest heq
    case h_2 => exact tryBacktrack_capture k l cap rest h

theorem matchHtmlAt_capture (l cap rest : Chars)
    (h : matchHtmlAt l = some (cap, rest)) :
    ∃ t, cap.map Char.toLower = httpLowerChars ++ t ∨
         cap.map Char.toLower = httpsLowerChars ++ t := by
  rcases l with _ | ⟨c1, tl1⟩
  · exact absurd h (by simp [matchHtmlAt])
  rcases tl1 with _ | ⟨c2, tl2⟩
  · exact absurd h (by simp [matchHtmlAt])
  rcases tl2 with _ | ⟨c3, tl3⟩
  · exact absurd h (by simp [matchHtmlAt])
  rcases tl3 with _ | ⟨c4, r⟩
  · exact absurd h (by simp [matchHtmlAt])
  simp only [matchHtmlAt] at h
  split at h
  case isFalse => exact absurd h (by simp)
  case isTrue => exact tryBacktrack_capture _ r cap rest h

theorem findallMD_capture :
    ∀ (fuel : Nat) (l cap : Chars), cap ∈ findallMD fuel l →
      ∃ t, cap.map Char.toLower = httpLowerChars ++ t ∨
           cap.map Char.toLower = httpsLowerChars ++ t
  | 0, l, cap, h => by simp [findallMD] at h
  | fuel + 1, [], cap, h => by simp [findallMD] at h
  | fuel + 1, c :: cs, cap, h => by
    simp only [findallMD] at h
    split at h
    case h_1 url rest heq =>
      rcases List.mem_cons.mp h with h1 | h2
      · subst h1
        exact matchMarkdownAt_capture (c :: cs) cap rest heq
      · exact findallMD_capture fuel rest cap h2
    case h_2 => exact findallMD_capture fuel cs cap h

theorem findallHTML_capture :
    ∀ (fuel : Nat) (l cap : Chars), cap ∈ findallHTML fuel l →
      ∃ t, cap.map Char.toLower = httpLowerChars ++ t ∨
           cap.map Char.toLower = httpsLowerChars ++ t
  | 0, l, cap, h => by simp [findallHTML] at h
  | fuel + 1, [], cap, h => by simp [findallHTML] at h
  | fuel + 1, c :: cs, cap, h => by
    simp only [findallHTML] at h
    split at h
    case h_1 url rest heq =>
      rcases List.mem_cons.mp h with h1 | h2
      · subst h1
        exact matchHtmlAt_capture (c :: cs) cap rest heq
      · exact findallHTML_capture fuel rest cap h2
    case h_2 => exact findallHTML_capture fuel cs cap h


/-- Example text with only non-HTTP(S) image references:
`![x](ftp://e.com/a.png) <img src='ftp://e.com/b.png'> ![y](/rel/a.png)`. -/
def exampleFtp : String :=
  "![x](ftp://e.com/a.png) <img src=" ++ String.singleton squote ++
    "ftp://e.com/b.png" ++ String.singleton squote ++ "> ![y](/rel/a.png)"

/-- C8: the Extractor only ever returns URLs whose lowering begins with
`http://` or `https://`; empty input yields `[]` (not an error), and a text
whose image references are all non-HTTP(S) (ftp URLs, relative paths)
yields `[]`. -/
theorem extract_image_urls_only_http :
    extract_image_urls "" = [] ∧
    (∀ (body u : String), u ∈ extract_image_urls body →
      ∃ t, (py_lower u).data = httpLowerChars ++ t ∨
           (py_lower u).data = httpsLowerChars ++ t) ∧
    extract_image_urls exampleFtp = [] := by
  refine ⟨rfl, ?_, by decide⟩
  intro body u hu
  have hmem := (dedupFirst_mem u _ [] hu).1
  rcases List.mem_append.mp hmem with hside | hside
  · obtain ⟨cap, hcap, rfl⟩ := List.mem_map.mp hside
    obtain ⟨t, ht⟩ := findallMD_capture _ _ cap hcap
    exact ⟨t, by simpa [py_lower] using ht⟩
  · obtain ⟨cap, hcap, rfl⟩ := List.mem_map.mp hside
    obtain ⟨t, ht⟩ := findallHTML_capture _ _ cap hcap
    exact ⟨t, by simpa [py_lower] using ht⟩

theorem extract_image_urls_only_http_witness :
    ∃ t, (py_lower "https://example.com/a.jpg").data = httpLowerChars ++ t ∨
         (py_lower "https://example.com/a.jpg").data = httpsLowerChars ++ t :=
  extract_image_urls_only_http.2.1 exampleBoth "https://example.com/a.jpg" (by decide)

end IssueWorker
